import Mathlib

/-!
Verification development for the bzr-difftools external diff plugin.

The definitions below are a shallow embedding of the Python sources:
  controller.py  (Controller.run, compare_using, get_tree_files,
                  get_diffs_or_stop, get_read_locks, release_read_locks)
  tempdir.py     (NamedTemporaryDir)
  difftool.py / externtool.py (tool capability flags, as far as the
                  controller consults them)

Repository collaborators from bzrlib (working trees, branches, deltas,
transports) are abstracted into an `Env` record of operations; trees and
branches are identified by natural numbers.  Side effects that matter to
the specification (read locks, temporary-directory creation, snapshot
writes, external tool invocation) are recorded in an event trace.
-/

namespace Bzr

/-- Bzrlib exceptions that the controller raises or handles. -/
inductive Err where
  | noDifferencesFound
  | bzrCommandError (msg : String)
  | notVersioned (path : String)
  | pathNotChild
  | bzrError (msg : String)
  | indexError
deriving DecidableEq

/-- Observable effects of a `compare_using` run, in program order. -/
inductive Event where
  | lockRead (tree : Nat)
  | unlock (tree : Nat)
  | mkTempDir (path : String)
  | writeStuff (path : String) (useTree : Bool)
  | noDiffFound
  | toolRun (oldPath newPath : String) (pathList : Option (List String))
deriving DecidableEq

abbrev Trace := List Event

instance exceptDecEq {ε α : Type} [DecidableEq ε] [DecidableEq α] :
    DecidableEq (Except ε α) := fun a b =>
  match a, b with
  | Except.ok x, Except.ok y =>
    if h : x = y then isTrue (by rw [h]) else isFalse (by simp [h])
  | Except.error x, Except.error y =>
    if h : x = y then isTrue (by rw [h]) else isFalse (by simp [h])
  | Except.ok _, Except.error _ => isFalse (by simp)
  | Except.error _, Except.ok _ => isFalse (by simp)

/-- One entry of a bzrlib delta: (path, file_id, kind, text_mods, meta_mods),
exactly the tuple shape destructured by `compare_using` (controller.py:200-206). -/
structure DeltaEntry where
  path : String
  file_id : Nat
  kind : String
  text_mods : Bool
  meta_mods : Bool
deriving DecidableEq

/-- The fields of a bzrlib `TreeDelta` that the controller reads
(controller.py:288-289 and 200-206). -/
structure Delta where
  added : List DeltaEntry
  removed : List DeltaEntry
  renamed : List DeltaEntry
  modified : List DeltaEntry
deriving DecidableEq

def emptyDelta : Delta := ⟨[], [], [], []⟩

/-- Result of `workingtree.WorkingTree.open_containing` as the controller
observes it (get_tree_files, controller.py:228-239): success with a tree and
relative path, or one of the two caught exceptions. -/
inductive WtOpen where
  | okWt (tree : Nat) (rel : String)
  | noWorkingTree
  | notLocalUrl
deriving DecidableEq

/-- The capability flags of a diff tool that `compare_using` consults via
`tool.supports(...)` (controller.py:119 and 193).  `TreeDiffTool` sets
`recursive = true`, `ListDiffTool` sets it false (difftool.py:124, 143);
`cleanup` defaults to true and is false only for tools registered with
`cleanup=False`, e.g. opendiff (controller.py:325, difftool.py:84-85). -/
structure Tool where
  recursive : Bool
  supports_cleanup : Bool
deriving DecidableEq

/-- The bzrlib collaborators consumed by the controller, abstracted as a
record of pure operations.  Trees and branches are named by `Nat`. -/
structure Env where
  /-- `WorkingTree.open_containing(path)` with its two caught failure modes. -/
  wt_open_containing : String → WtOpen
  /-- `Branch.open_containing(path)` returning (branch, relative path). -/
  br_open_containing : String → Nat × String
  /-- `tree.branch`. -/
  tree_branch : Nat → Nat
  /-- `tree.get_root_id()`. -/
  get_root_id : Nat → Nat
  /-- `tree.id2abspath(file_id)`. -/
  id2abspath : Nat → Nat → String
  /-- `branch.base`. -/
  branch_base : Nat → String
  /-- `branch.basis_tree()`. -/
  basis_tree : Nat → Nat
  /-- `tree.inventory.path2id(rpath)`. -/
  path2id : Nat → String → Option Nat
  /-- `osutils.relpath(base, path)`; `none` models the `PathNotChild` raise. -/
  relpath : String → String → Option String
  /-- whether `transport.get_transport(path)` is a `LocalTransport`. -/
  is_local : String → Bool
  /-- `tree.inventory.get_file_kind(file_id)`. -/
  get_file_kind : Nat → Nat → String
  /-- `isinstance(tree, workingtree.WorkingTree)`. -/
  is_working_tree : Nat → Bool
  /-- `tree.inventory.id2path(file_id)` / `tree.id2path(file_id)`. -/
  id2path : Nat → Nat → String
  /-- `tree.has_id(file_id)`. -/
  has_id : Nat → Nat → Bool
  /-- `new_tree.changes_from(old_tree, specific_files=paths)`:
  arguments are (new tree, old tree, restricted path list). -/
  changes_from : Nat → Nat → List String → Delta
  /-- `tree.abspath('')`. -/
  abspath_root : Nat → String
  /-- `branch.nick`. -/
  nick : Nat → String
  /-- `rev.in_history(branch).revno`, indexed (branch, revision spec). -/
  in_history_revno : Nat → Nat → Nat
  /-- `branch.repository.revision_tree(rev.in_history(branch).rev_id)`,
  indexed (branch, revision spec). -/
  revision_tree : Nat → Nat → Nat
  /-- the unique component the OS inserts into each `mkdtemp` name, indexed
  by creation site (0 = new side, 1 = old side). -/
  mkdtemp_rand : Nat → String
  /-- the integer exit status the external tool process would report. -/
  tool_exit : Int

/- ------------------------------------------------------------------ -/
/- String helpers mirroring the Python/osutils primitives used.        -/
/- ------------------------------------------------------------------ -/

/-- Python `str.replace(pat, repl, 1)`: replace the leftmost occurrence of
`pat` anywhere in the string (not only a leading occurrence). -/
def replaceFirstChars : List Char → List Char → List Char → List Char
  | [], pat, repl => if pat.isPrefixOf ([] : List Char) then repl else []
  | c :: rest, pat, repl =>
    if pat.isPrefixOf (c :: rest) then repl ++ (c :: rest).drop pat.length
    else c :: replaceFirstChars rest pat repl

/-- `path.replace(adjust_path, '.', 1)` as used at controller.py:200. -/
def pyReplaceFirst (s pat repl : String) : String :=
  String.mk (replaceFirstChars s.data pat.data repl.data)

/-- `osutils.basename` (POSIX basename): the part after the last slash. -/
def basename (p : String) : String :=
  (p.splitOn "/").getLastD p

/-- `osutils.pathjoin` restricted to the relative second components the
controller produces (adjust_path is never absolute). -/
def pathjoin (a b : String) : String :=
  if b = "" then a ++ "/" else a ++ "/" ++ b

/-- Python `str.endswith` via the character list. -/
def strEndsWith (s sfx : String) : Bool :=
  sfx.data.isSuffixOf s.data

/- ------------------------------------------------------------------ -/
/- tempdir.py : NamedTemporaryDir                                      -/
/- ------------------------------------------------------------------ -/

/-- Filesystem operations performed by `NamedTemporaryDir`. -/
inductive FsOp where
  | mkdtempDir (path : String)
  | rmtree (path : String)
deriving DecidableEq

/-- The state of a `NamedTemporaryDir` (tempdir.py:26-33). -/
structure NamedTemporaryDir where
  path : String
  readonly : Bool
  cleaned : Bool
deriving DecidableEq

/-- `osutils.mkdtemp(prefix=pfx, suffix=sfx)`: the OS places a unique random
component between the prefix and the suffix. -/
def mkdtempPath (pfx sfx rand : String) : String :=
  String.mk ("/tmp/".data ++ pfx.data ++ rand.data ++ sfx.data)

/-- `NamedTemporaryDir.__init__(prefix, suffix, cleanup, readonly)`
(tempdir.py:26-33): path is `mkdtemp(prefix, suffix + '_tmp')`, and
`cleaned` starts as `not cleanup`. -/
def NamedTemporaryDir.init (pfx sfx : String) (cleanup readonly : Bool)
    (rand : String) : NamedTemporaryDir × List FsOp :=
  let p := mkdtempPath pfx (sfx ++ "_tmp") rand
  ({ path := p, readonly := readonly, cleaned := !cleanup }, [FsOp.mkdtempDir p])

/-- `NamedTemporaryDir.cleanup` (tempdir.py:74-86): refuse paths lacking the
`_tmp` marker; otherwise remove the tree only if not already cleaned. -/
def NamedTemporaryDir.cleanup (d : NamedTemporaryDir) :
    Except Err (NamedTemporaryDir × List FsOp) :=
  if !(strEndsWith d.path "_tmp") then
    Except.error (Err.bzrError ("attempted to delete a non-tmp directory: " ++ d.path))
  else if !d.cleaned then
    Except.ok ({ d with cleaned := true }, [FsOp.rmtree d.path])
  else
    Except.ok (d, [])

/-- `NamedTemporaryDir.__del__` (tempdir.py:88-92) just calls `cleanup`. -/
def NamedTemporaryDir.delAuto (d : NamedTemporaryDir) :
    Except Err (NamedTemporaryDir × List FsOp) :=
  d.cleanup

/- ------------------------------------------------------------------ -/
/- controller.py : mode selection and path-list helpers                -/
/- ------------------------------------------------------------------ -/

/-- The `use_tree` decision of `compare_using` (controller.py:102-108):
false (single-path staging) exactly for a single non-directory argument or a
second branch with a non-directory first item. -/
def use_tree_mode (file_list_len : Nat) (in_subdir : Bool) (has_b2 : Bool) : Bool :=
  if file_list_len == 1 && !in_subdir then false
  else if has_b2 && !in_subdir then false
  else true

/-- Whether `compare_using` hands the tool an iterative path list
(controller.py:193-207): only when the tool is not recursive and the
invocation is not the one-file single-path case. -/
def run_passes_list (recursive : Bool) (file_list_len : Nat) (in_subdir : Bool) : Bool :=
  if recursive then false
  else if file_list_len == 1 && !in_subdir then false
  else true

/-- The spec sentence's mode rule, stated verbatim for comparison with
`use_tree_mode`: single-path mode iff exactly one path naming a single file,
or a tool that performs its own recursive traversal. -/
def spec_single_path_mode (exactly_one_path is_single_file tool_recursive : Bool) : Bool :=
  (exactly_one_path && is_single_file) || tool_recursive

/-- The iterative path list of controller.py:199-206: the delta's modified
entries with text changes, rewritten with `str.replace(adjust_path, '.', 1)`
when an adjustment prefix is present. -/
def iterative_path_list (adjust_path : String) (delta : Delta) : List String :=
  if adjust_path != "" then
    (delta.modified.filter (fun e => e.text_mods)).map
      (fun e => pyReplaceFirst e.path adjust_path ".")
  else
    (delta.modified.filter (fun e => e.text_mods)).map (fun e => e.path)

/-- The spec's reading of the rewrite: replace only a leading occurrence of
the prefix (an occurrence at the start of the path) with `'.'`. -/
def spec_leading_rewrite (adjust_path p : String) : String :=
  if adjust_path.data.isPrefixOf p.data then
    String.mk ('.' :: p.data.drop adjust_path.data.length)
  else p

/-- `result = 1` at controller.py:209-210: the external tool's exit status is
discarded and the result fixed to 1. -/
def override_result (toolExit : Int) : Int := 1

def tmp_pfx : String := "bzr_diff-"

/- ------------------------------------------------------------------ -/
/- controller.py : get_tree_files                                      -/
/- ------------------------------------------------------------------ -/

/-- Resolution of `rpath` for one path of the get_tree_files loop
(controller.py:247-255).  On the first path, `rel_path` from the initial
`open_containing` is used; for later paths either `osutils.relpath` against
`base_path`, or (when the first location was not local) a second
`Branch.open_containing` whose base must match branch 1. -/
def gtf_rpath (env : Env) (branch1 : Nat) (base_path : Option String)
    (rel_path : String) (isFirst : Bool) (file_name : String) : Except Err String :=
  if isFirst then Except.ok rel_path
  else
    match base_path with
    | some bp =>
      match env.relpath bp file_name with
      | some r => Except.ok r
      | none => Except.error Err.pathNotChild
    | none =>
      if env.branch_base (env.br_open_containing file_name).1
          != env.branch_base branch1 then Except.error Err.pathNotChild
      else Except.ok (env.br_open_containing file_name).2

/-- One iteration of the get_tree_files loop body (controller.py:246-265):
resolve the relative path, look it up in the tree's inventory, and classify
an unmatched path as `PathNotChild` (non-local) or `NotVersionedError`
(local). -/
def gtf_step (env : Env) (tree branch1 : Nat) (base_path : Option String)
    (rel_path : String) (isFirst : Bool) (file_name : String) : Except Err Nat :=
  match gtf_rpath env branch1 base_path rel_path isFirst file_name with
  | Except.error e => Except.error e
  | Except.ok rpath =>
    match env.path2id tree rpath with
    | some fid => Except.ok fid
    | none =>
      if !(env.is_local file_name) then Except.error Err.pathNotChild
      else Except.error (Err.notVersioned file_name)

/-- The get_tree_files loop (controller.py:244-267): `PathNotChild` is caught
and breaks the loop, leaving the unconsumed paths as the remainder;
`NotVersionedError` propagates. -/
def gtf_loop (env : Env) (tree branch1 : Nat) (base_path : Option String)
    (rel_path : String) : List String → Bool → List Nat →
    Except Err (List Nat × List String)
  | [], _, acc => Except.ok (acc, [])
  | file_name :: rest, isFirst, acc =>
    match gtf_step env tree branch1 base_path rel_path isFirst file_name with
    | Except.ok fid => gtf_loop env tree branch1 base_path rel_path rest false (acc ++ [fid])
    | Except.error Err.pathNotChild => Except.ok (acc, file_name :: rest)
    | Except.error e => Except.error e

/-- The `tree.lock_read(); try: loop finally: tree.unlock()` bracket of
get_tree_files (controller.py:241-272). -/
def gtf_core (env : Env) (tree branch1 : Nat) (base_path : Option String)
    (rel_path : String) (file_list : List String) (tr : Trace) :
    Except Err (Nat × Nat × List Nat × List String) × Trace :=
  let tr1 := tr ++ [Event.lockRead tree]
  match gtf_loop env tree branch1 base_path rel_path file_list true [] with
  | Except.error e => (Except.error e, tr1 ++ [Event.unlock tree])
  | Except.ok (ids, remainder) =>
    (Except.ok (branch1, tree, ids, remainder), tr1 ++ [Event.unlock tree])

/-- `get_tree_files` (controller.py:218-272): open the containing working
tree (falling back to the branch's basis tree), lock it for reading, resolve
each path to a file id, unlock, and return the unconsumed remainder.
`osutils.normpath` is modelled as the identity on the abstract paths. -/
def get_tree_files (env : Env) (file_list : List String) (tr : Trace) :
    Except Err (Nat × Nat × List Nat × List String) × Trace :=
  match file_list.head? with
  | none => (Except.error Err.indexError, tr)
  | some first =>
    match env.wt_open_containing first with
    | WtOpen.okWt t rel =>
      gtf_core env t (env.tree_branch t)
        (some (env.id2abspath t (env.get_root_id t))) rel file_list tr
    | WtOpen.noWorkingTree =>
      let br := env.br_open_containing first
      gtf_core env (env.basis_tree br.1) br.1 (some (env.branch_base br.1)) br.2 file_list tr
    | WtOpen.notLocalUrl =>
      let br := env.br_open_containing first
      gtf_core env (env.basis_tree br.1) br.1 none br.2 file_list tr

/- ------------------------------------------------------------------ -/
/- controller.py : get_diffs_or_stop                                   -/
/- ------------------------------------------------------------------ -/

/-- The restricted path list of get_diffs_or_stop (controller.py:283-285):
the new tree's path for each requested id the new tree still has; requested
ids absent from the new tree contribute nothing. -/
def gds_path_list (env : Env) (new_tree : Nat) (fids : List Nat) : List String :=
  (fids.filter (fun fid => env.has_id new_tree fid)).map
    (fun fid => env.id2path new_tree fid)

/-- The emptiness test of get_diffs_or_stop (controller.py:288-291). -/
def gds_check (delta : Delta) (tr : Trace) : Except Err Delta × Trace :=
  if delta.removed.length + delta.added.length + delta.renamed.length
      + delta.modified.length == 0 then
    (Except.error Err.noDifferencesFound, tr ++ [Event.noDiffFound])
  else (Except.ok delta, tr)

/-- `get_diffs_or_stop` (controller.py:275-292): compute the restricted
delta and raise `NoDifferencesFound` when it is empty. -/
def get_diffs_or_stop (env : Env) (old_tree new_tree : Nat) (fids : List Nat)
    (tr : Trace) : Except Err Delta × Trace :=
  gds_check (env.changes_from new_tree old_tree (gds_path_list env new_tree fids)) tr

/- ------------------------------------------------------------------ -/
/- controller.py : compare_using                                       -/
/- ------------------------------------------------------------------ -/

/-- The path of the `NamedTemporaryDir` that `compare_using` creates at
staging site `site` (0 = new side, line 144/158/166; 1 = old side, line 184). -/
def tmpdir_path (env : Env) (hint : String) (cleanup : Bool) (site : Nat) : String :=
  ((NamedTemporaryDir.init tmp_pfx hint cleanup true (env.mkdtemp_rand site)).1).path

/-- `NamedTemporaryDir(tmp_prefix, hint, cleanup)` followed by
`write_stuff(tree, file_ids, use_tree)` at staging site `site`: returns the
new directory's path and the extended trace. -/
def stage_side (env : Env) (hint : String) (cleanup use_tree : Bool) (site : Nat)
    (tr : Trace) : String × Trace :=
  (tmpdir_path env hint cleanup site,
   tr ++ [Event.mkTempDir (tmpdir_path env hint cleanup site),
          Event.writeStuff (tmpdir_path env hint cleanup site) use_tree])

/-- The old-side extraction of compare_using (controller.py:177-186): when a
second branch is present and branch 1 has a working tree, diff in place;
otherwise stage the old tree into a `NamedTemporaryDir`. -/
def old_side (env : Env) (fl_len : Nat) (hasB2 in_working_tree : Bool)
    (wt1 fid0 : Nat) (old_hint : String) (cleanup use_tree : Bool)
    (adjust_path new_path : String) (delta : Delta) (tr : Trace) :
    Except Err (String × String × Delta) × Trace :=
  if hasB2 && in_working_tree then
    if fl_len == 1 then
      (Except.ok (env.id2abspath wt1 fid0, new_path, delta), tr)
    else
      (Except.ok (env.abspath_root wt1, new_path, delta), tr)
  else
    (Except.ok (pathjoin (stage_side env old_hint cleanup use_tree 1 tr).1 adjust_path,
        new_path, delta),
      (stage_side env old_hint cleanup use_tree 1 tr).2)

/-- The section of compare_using executed under the second read-lock bracket
(controller.py:139-186): pick the new side, compute the restricted delta
(raising `NoDifferencesFound` if empty), stage whichever sides need staging,
and return the final (old_path, new_path, delta). -/
def compare_locked (env : Env) (fl_len : Nat) (rev2 : Option Nat) (b1 wt1 : Nat)
    (fids1 : List Nat) (fid0 : Nat) (second : Option (Nat × Nat × List Nat × Bool))
    (old_tree : Nat) (old_hint : String) (in_working_tree use_tree : Bool)
    (adjust_path : String) (cleanup : Bool) (tr : Trace) :
    Except Err (String × String × Delta) × Trace :=
  match rev2 with
  | some r2 =>
    match get_diffs_or_stop env old_tree (env.revision_tree b1 r2) fids1 tr with
    | (Except.error e, tr2) => (Except.error e, tr2)
    | (Except.ok delta, tr2) =>
      old_side env fl_len second.isSome in_working_tree wt1 fid0 old_hint cleanup
        use_tree adjust_path
        (pathjoin (stage_side env ("-rev" ++ toString (env.in_history_revno b1 r2))
            cleanup use_tree 0 tr2).1 adjust_path)
        delta
        (stage_side env ("-rev" ++ toString (env.in_history_revno b1 r2))
          cleanup use_tree 0 tr2).2
  | none =>
    match second with
    | some (b2, wt2, fids2, b2wt) =>
      if b2wt then
        match get_diffs_or_stop env old_tree wt2 fids2 tr with
        | (Except.error e, tr2) => (Except.error e, tr2)
        | (Except.ok delta, tr2) =>
          if fl_len == 1 then
            match fids2.head? with
            | none => (Except.error Err.indexError, tr2)
            | some f2 =>
              old_side env fl_len true in_working_tree wt1 fid0 old_hint cleanup
                use_tree adjust_path (env.id2abspath wt2 f2) delta tr2
          else
            old_side env fl_len true in_working_tree wt1 fid0 old_hint cleanup
              use_tree adjust_path (env.abspath_root wt2) delta tr2
      else
        match get_diffs_or_stop env old_tree wt2 fids2 tr with
        | (Except.error e, tr2) => (Except.error e, tr2)
        | (Except.ok delta, tr2) =>
          old_side env fl_len true in_working_tree wt1 fid0 old_hint cleanup
            use_tree adjust_path
            (pathjoin (stage_side env ("-" ++ env.nick b2) cleanup use_tree 0 tr2).1
              adjust_path)
            delta
            (stage_side env ("-" ++ env.nick b2) cleanup use_tree 0 tr2).2
    | none =>
      if !in_working_tree then
        match get_diffs_or_stop env old_tree (env.basis_tree b1) fids1 tr with
        | (Except.error e, tr2) => (Except.error e, tr2)
        | (Except.ok delta, tr2) =>
          old_side env fl_len false in_working_tree wt1 fid0 old_hint cleanup
            use_tree adjust_path
            (pathjoin (stage_side env "-basis" cleanup use_tree 0 tr2).1 adjust_path)
            delta
            (stage_side env "-basis" cleanup use_tree 0 tr2).2
      else
        match get_diffs_or_stop env old_tree wt1 fids1 tr with
        | (Except.error e, tr2) => (Except.error e, tr2)
        | (Except.ok delta, tr2) =>
          if fl_len == 1 then
            old_side env fl_len false in_working_tree wt1 fid0 old_hint cleanup
              use_tree adjust_path (env.id2abspath wt1 fid0) delta tr2
          else
            old_side env fl_len false in_working_tree wt1 fid0 old_hint cleanup
              use_tree adjust_path (env.abspath_root wt1) delta tr2

/-- The old-tree selection of compare_using (controller.py:125-134): first
revision if given, else branch 1's working tree when a second branch is
present, else branch 1's basis tree; paired with the staging-name hint. -/
def old_selection (env : Env) (rev1 : Option Nat) (b1 wt1 : Nat)
    (second : Option (Nat × Nat × List Nat × Bool)) : Nat × String :=
  match rev1 with
  | some r1 =>
    (env.revision_tree b1 r1, "-rev" ++ toString (env.in_history_revno b1 r1))
  | none =>
    match second with
    | some _ => (wt1, "-" ++ env.nick b1)
    | none => (env.basis_tree b1, "-basis")

/-- The `trees_to_lock` list of compare_using (controller.py:82-86). -/
def trees_to_lock_of (wt1 : Nat) (second : Option (Nat × Nat × List Nat × Bool)) :
    List Nat :=
  wt1 :: (match second with | some s => [s.2.1] | none => [])

/-- `in_subdir` of compare_using (controller.py:98-99). -/
def in_subdir_of (env : Env) (wt1 fid0 : Nat) : Bool :=
  env.get_file_kind wt1 fid0 == "directory"
    || env.get_file_kind wt1 fid0 == "root_directory"

/-- `adjust_path` of compare_using (controller.py:111-117). -/
def adjust_path_of (env : Env) (file_list : List String) (wt1 fid0 : Nat)
    (second : Option (Nat × Nat × List Nat × Bool)) : String :=
  if file_list.length == 1 || second.isSome then
    if in_subdir_of env wt1 fid0 then env.id2path wt1 fid0
    else basename (file_list.headD "")
  else ""

/-- Lines 124-210 of compare_using: old-tree selection, the second read-lock
bracket around `compare_locked` (released in the `finally` before any tool
starts), the external tool invocation, and the result override.  The
three-way dispatch of lines 193-207 collapses to `run_passes_list`, since
its first two arms both invoke the tool with just the two paths. -/
def compare_body (env : Env) (tool : Tool) (file_list : List String)
    (rev1 rev2 : Option Nat) (b1 wt1 : Nat) (fids1 : List Nat) (fid0 : Nat)
    (second : Option (Nat × Nat × List Nat × Bool)) (trees_to_lock : List Nat)
    (in_subdir in_working_tree use_tree : Bool) (adjust_path : String)
    (cleanup : Bool) (tr : Trace) : Except Err Int × Trace :=
  match compare_locked env file_list.length rev2 b1 wt1 fids1 fid0 second
      (old_selection env rev1 b1 wt1 second).1 (old_selection env rev1 b1 wt1 second).2
      in_working_tree use_tree adjust_path cleanup
      (tr ++ trees_to_lock.map Event.lockRead) with
  | (Except.error e, tr2) => (Except.error e, tr2 ++ trees_to_lock.map Event.unlock)
  | (Except.ok (old_path, new_path, delta), tr2) =>
    if run_passes_list tool.recursive file_list.length in_subdir then
      (Except.ok (override_result env.tool_exit),
        (tr2 ++ trees_to_lock.map Event.unlock)
          ++ [Event.toolRun old_path new_path
                (some (iterative_path_list adjust_path delta))])
    else
      (Except.ok (override_result env.tool_exit),
        (tr2 ++ trees_to_lock.map Event.unlock) ++ [Event.toolRun old_path new_path none])

/-- Lines 95-215 of compare_using: the first read-lock bracket computing the
kind/mode/adjust-path data, then `compare_body` wrapped in the
`except NoDifferencesFound: result = 0` handler.  The inventory reads inside
the first bracket are pure, so the bracket contributes exactly its lock and
unlock events to the trace. -/
def compare_main (env : Env) (tool : Tool) (file_list : List String)
    (rev1 rev2 : Option Nat) (b1 wt1 : Nat) (fids1 : List Nat)
    (second : Option (Nat × Nat × List Nat × Bool)) (tr : Trace) :
    Except Err Int × Trace :=
  match fids1.head? with
  | none =>
    (Except.error Err.indexError,
      (tr ++ (trees_to_lock_of wt1 second).map Event.lockRead)
        ++ (trees_to_lock_of wt1 second).map Event.unlock)
  | some fid0 =>
    match compare_body env tool file_list rev1 rev2 b1 wt1 fids1 fid0 second
        (trees_to_lock_of wt1 second)
        (in_subdir_of env wt1 fid0) (env.is_working_tree wt1)
        (use_tree_mode file_list.length (in_subdir_of env wt1 fid0) second.isSome)
        (adjust_path_of env file_list wt1 fid0 second)
        tool.supports_cleanup
        ((tr ++ (trees_to_lock_of wt1 second).map Event.lockRead)
          ++ (trees_to_lock_of wt1 second).map Event.unlock) with
    | (Except.error Err.noDifferencesFound, tr3) => (Except.ok 0, tr3)
    | other => other

/-- `compare_using` (controller.py:70-215): resolve the tree(s) and files,
reject more than two branches and the `-r`-with-two-branches combination,
then run the comparison. -/
def compare_using (env : Env) (tool : Tool) (file_list : List String)
    (rev1 rev2 : Option Nat) (tr : Trace) : Except Err Int × Trace :=
  match get_tree_files env file_list tr with
  | (Except.error e, tr1) => (Except.error e, tr1)
  | (Except.ok (b1, wt1, fids1, remainder), tr1) =>
    if remainder.length > 0 then
      match get_tree_files env remainder tr1 with
      | (Except.error e, tr2) => (Except.error e, tr2)
      | (Except.ok (_b2, wt2, fids2, remainder2), tr2) =>
        if remainder2.length > 0 then
          (Except.error (Err.bzrCommandError "Cannot compare more than two branches"), tr2)
        else if rev1.isSome || rev2.isSome then
          (Except.error (Err.bzrCommandError "Cannot specify -r with multiple branches"), tr2)
        else
          compare_main env tool file_list rev1 rev2 b1 wt1 fids1
            (some (_b2, wt2, fids2, env.is_working_tree wt2)) tr2
    else
      compare_main env tool file_list rev1 rev2 b1 wt1 fids1 none tr1

/- ------------------------------------------------------------------ -/
/- Trace analysis                                                      -/
/- ------------------------------------------------------------------ -/

/-- Net number of read locks acquired over a trace segment. -/
def netLock : Trace → Int
  | [] => 0
  | Event.lockRead _ :: r => netLock r + 1
  | Event.unlock _ :: r => netLock r - 1
  | _ :: r => netLock r

/-- Is the event an external tool invocation? -/
def isToolRun : Event → Bool
  | Event.toolRun _ _ _ => true
  | _ => false

/-- Is the event a lock acquisition or release? -/
def isLockEvent : Event → Bool
  | Event.lockRead _ => true
  | Event.unlock _ => true
  | _ => false

/-- Events that the delta/staging section may emit: temporary-directory
creation, snapshot writes, and the empty-delta signal. -/
def bodyEvent : Event → Bool
  | Event.mkTempDir _ => true
  | Event.writeStuff _ _ => true
  | Event.noDiffFound => true
  | _ => false

/-- Starting from lock depth `d`, check that every snapshot write happens
while at least one read lock is held and every tool invocation happens with
no read lock held. -/
def lockDiscipline : Int → Trace → Bool
  | _, [] => true
  | d, Event.lockRead _ :: r => lockDiscipline (d + 1) r
  | d, Event.unlock _ :: r => lockDiscipline (d - 1) r
  | d, Event.toolRun _ _ _ :: r => (d == 0) && lockDiscipline d r
  | d, Event.writeStuff _ _ :: r => decide (0 < d) && lockDiscipline d r
  | d, _ :: r => lockDiscipline d r

/-- Starting from lock depth `d`, does some snapshot write happen while at
least one read lock is held?  (The claim under test asserts this is never
the case.) -/
def writeWhileLocked : Int → Trace → Bool
  | _, [] => false
  | d, Event.lockRead _ :: r => writeWhileLocked (d + 1) r
  | d, Event.unlock _ :: r => writeWhileLocked (d - 1) r
  | d, Event.writeStuff _ _ :: r => decide (0 < d) || writeWhileLocked d r
  | d, _ :: r => writeWhileLocked d r

theorem netLock_append (a b : Trace) : netLock (a ++ b) = netLock a + netLock b := by
  induction a with
  | nil => simp [netLock]
  | cons e r ih =>
    cases e <;> simp only [List.cons_append, List.append_eq, netLock, ih] <;> omega

theorem lockDiscipline_append (a b : Trace) (d : Int) :
    lockDiscipline d (a ++ b)
      = (lockDiscipline d a && lockDiscipline (d + netLock a) b) := by
  induction a generalizing d with
  | nil => simp [lockDiscipline, netLock]
  | cons e r ih =>
    cases e with
    | lockRead t =>
      simp only [List.cons_append, List.append_eq, lockDiscipline, netLock, ih]
      have h : d + 1 + netLock r = d + (netLock r + 1) := by omega
      rw [h]
    | unlock t =>
      simp only [List.cons_append, List.append_eq, lockDiscipline, netLock, ih]
      have h : d - 1 + netLock r = d + (netLock r - 1) := by omega
      rw [h]
    | mkTempDir p =>
      simp only [List.cons_append, List.append_eq, lockDiscipline, netLock, ih]
    | writeStuff p u =>
      simp only [List.cons_append, List.append_eq, lockDiscipline, netLock, ih, Bool.and_assoc]
    | noDiffFound =>
      simp only [List.cons_append, List.append_eq, lockDiscipline, netLock, ih]
    | toolRun o n l =>
      simp only [List.cons_append, List.append_eq, lockDiscipline, netLock, ih, Bool.and_assoc]

theorem netLock_locks (l : List Nat) : netLock (l.map Event.lockRead) = l.length := by
  induction l with
  | nil => simp [netLock]
  | cons t r ih => simp [netLock, ih]

theorem netLock_unlocks (l : List Nat) : netLock (l.map Event.unlock) = -l.length := by
  induction l with
  | nil => simp [netLock]
  | cons t r ih => simp [netLock, ih]; omega

theorem lockDiscipline_locks (l : List Nat) (d : Int) :
    lockDiscipline d (l.map Event.lockRead) = true := by
  induction l generalizing d with
  | nil => simp [lockDiscipline]
  | cons t r ih => simp [lockDiscipline, ih]

theorem lockDiscipline_unlocks (l : List Nat) (d : Int) :
    lockDiscipline d (l.map Event.unlock) = true := by
  induction l generalizing d with
  | nil => simp [lockDiscipline]
  | cons t r ih => simp [lockDiscipline, ih]

theorem netLock_bodyEvents (tail : Trace) (h : tail.all bodyEvent = true) :
    netLock tail = 0 := by
  induction tail with
  | nil => simp [netLock]
  | cons e r ih =>
    simp only [List.all_cons, Bool.and_eq_true] at h
    cases e <;> simp_all [bodyEvent, netLock]

theorem lockDiscipline_bodyEvents (tail : Trace) (d : Int)
    (h : tail.all bodyEvent = true) (hd : 0 < d) : lockDiscipline d tail = true := by
  induction tail with
  | nil => simp [lockDiscipline]
  | cons e r ih =>
    simp only [List.all_cons, Bool.and_eq_true] at h
    cases e <;> simp_all [bodyEvent, lockDiscipline]

theorem no_tool_bodyEvents (tail : Trace) (h : tail.all bodyEvent = true) :
    tail.any isToolRun = false := by
  induction tail with
  | nil => simp
  | cons e r ih =>
    simp only [List.all_cons, Bool.and_eq_true] at h
    cases e <;> simp_all [bodyEvent, isToolRun]

theorem no_tool_locks (l : List Nat) : (l.map Event.lockRead).any isToolRun = false := by
  induction l with
  | nil => simp
  | cons t r ih => simp_all [isToolRun]

theorem no_tool_unlocks (l : List Nat) : (l.map Event.unlock).any isToolRun = false := by
  induction l with
  | nil => simp
  | cons t r ih => simp_all [isToolRun]

theorem noDiff_not_mem_locks (l : List Nat) :
    Event.noDiffFound ∉ l.map Event.lockRead := by
  induction l with
  | nil => simp
  | cons t r ih => simp_all

theorem noDiff_not_mem_unlocks (l : List Nat) :
    Event.noDiffFound ∉ l.map Event.unlock := by
  induction l with
  | nil => simp
  | cons t r ih => simp_all

/- ------------------------------------------------------------------ -/
/- Shape lemmas about the embedded controller functions                -/
/- ------------------------------------------------------------------ -/

theorem gtf_rpath_error (env : Env) (branch1 : Nat) (base_path : Option String)
    (rel_path : String) (isFirst : Bool) (file_name : String) (e : Err)
    (h : gtf_rpath env branch1 base_path rel_path isFirst file_name = Except.error e) :
    e = Err.pathNotChild := by
  unfold gtf_rpath at h
  split at h
  · simp at h
  · split at h
    · split at h <;> simp_all
    · split at h <;> simp_all

theorem gtf_step_error (env : Env) (tree branch1 : Nat) (base_path : Option String)
    (rel_path : String) (isFirst : Bool) (file_name : String) (e : Err)
    (h : gtf_step env tree branch1 base_path rel_path isFirst file_name = Except.error e) :
    e = Err.pathNotChild ∨ ∃ p, e = Err.notVersioned p := by
  unfold gtf_step at h
  split at h
  next e2 heq =>
    simp at h
    exact Or.inl (h ▸ gtf_rpath_error env branch1 base_path rel_path isFirst file_name e2 heq)
  next rpath heq =>
    split at h
    · simp at h
    · split at h
      · simp only [Except.error.injEq] at h
        exact Or.inl h.symm
      · simp only [Except.error.injEq] at h
        exact Or.inr ⟨file_name, h.symm⟩

theorem gtf_loop_error (env : Env) (tree branch1 : Nat) (base_path : Option String)
    (rel_path : String) (fl : List String) (isFirst : Bool) (acc : List Nat) (e : Err)
    (h : gtf_loop env tree branch1 base_path rel_path fl isFirst acc = Except.error e) :
    ∃ p, e = Err.notVersioned p := by
  induction fl generalizing isFirst acc with
  | nil => simp [gtf_loop] at h
  | cons fn rest ih =>
    rw [gtf_loop] at h
    split at h
    · exact ih _ _ h
    · simp at h
    next e2 hne heq =>
      simp only [Except.error.injEq] at h
      subst h
      rcases gtf_step_error env tree branch1 base_path rel_path isFirst fn e2 heq with h1 | h1
      · exact absurd (h1 ▸ rfl) hne
      · exact h1

theorem gtf_core_shape (env : Env) (tree branch1 : Nat) (base_path : Option String)
    (rel_path : String) (fl : List String) (tr : Trace) :
    ∃ res, gtf_core env tree branch1 base_path rel_path fl tr
        = (res, tr ++ [Event.lockRead tree, Event.unlock tree]) ∧
      (∀ msg, res ≠ Except.error (Err.bzrCommandError msg)) ∧
      res ≠ Except.error Err.noDifferencesFound := by
  unfold gtf_core
  split
  next e hl =>
    obtain ⟨p, hp⟩ := gtf_loop_error env tree branch1 base_path rel_path fl true [] e hl
    subst hp
    refine ⟨Except.error (Err.notVersioned p), ?_, ?_, ?_⟩ <;> simp
  next ids remainder hl =>
    refine ⟨Except.ok (branch1, tree, ids, remainder), ?_, ?_, ?_⟩ <;> simp

/-- Any `get_tree_files` call appends exactly a balanced lock/unlock pair (or
nothing, when the path list is empty) to the trace, and never raises a usage
error or the empty-delta signal itself. -/
theorem gtf_shape (env : Env) (fl : List String) (tr : Trace) :
    ∃ res tail, get_tree_files env fl tr = (res, tr ++ tail) ∧
      (tail = [] ∨ ∃ t, tail = [Event.lockRead t, Event.unlock t]) ∧
      (∀ msg, res ≠ Except.error (Err.bzrCommandError msg)) ∧
      res ≠ Except.error Err.noDifferencesFound := by
  unfold get_tree_files
  split
  · exact ⟨Except.error Err.indexError, [], by simp, Or.inl rfl, by simp, by simp⟩
  next first heq =>
    split
    next t rel hw =>
      obtain ⟨res, hrun, hcmd, hnd⟩ := gtf_core_shape env t (env.tree_branch t)
        (some (env.id2abspath t (env.get_root_id t))) rel fl tr
      exact ⟨res, _, hrun, Or.inr ⟨t, rfl⟩, hcmd, hnd⟩
    next hw =>
      obtain ⟨res, hrun, hcmd, hnd⟩ := gtf_core_shape env
        (env.basis_tree (env.br_open_containing first).1) (env.br_open_containing first).1
        (some (env.branch_base (env.br_open_containing first).1))
        (env.br_open_containing first).2 fl tr
      exact ⟨res, _, hrun, Or.inr ⟨_, rfl⟩, hcmd, hnd⟩
    next hw =>
      obtain ⟨res, hrun, hcmd, hnd⟩ := gtf_core_shape env
        (env.basis_tree (env.br_open_containing first).1) (env.br_open_containing first).1
        none (env.br_open_containing first).2 fl tr
      exact ⟨res, _, hrun, Or.inr ⟨_, rfl⟩, hcmd, hnd⟩

/-- `get_diffs_or_stop` either returns the restricted delta without touching
the trace, or signals the empty delta. -/
theorem gds_shape (env : Env) (old_tree new_tree : Nat) (fids : List Nat) (tr : Trace) :
    (∃ d, get_diffs_or_stop env old_tree new_tree fids tr = (Except.ok d, tr)) ∨
    get_diffs_or_stop env old_tree new_tree fids tr
      = (Except.error Err.noDifferencesFound, tr ++ [Event.noDiffFound]) := by
  unfold get_diffs_or_stop gds_check
  split
  · exact Or.inr rfl
  · exact Or.inl ⟨_, rfl⟩

theorem old_side_shape (env : Env) (fl_len : Nat) (hasB2 in_working_tree : Bool)
    (wt1 fid0 : Nat) (old_hint : String) (cleanup use_tree : Bool)
    (adjust_path new_path : String) (delta : Delta) (tr : Trace) :
    ∃ op tail, old_side env fl_len hasB2 in_working_tree wt1 fid0 old_hint cleanup
        use_tree adjust_path new_path delta tr = (Except.ok (op, new_path, delta), tr ++ tail) ∧
      tail.all bodyEvent = true ∧ Event.noDiffFound ∉ tail := by
  unfold old_side
  split
  · split
    · exact ⟨env.id2abspath wt1 fid0, [], by simp, by simp, by simp⟩
    · exact ⟨env.abspath_root wt1, [], by simp, by simp, by simp⟩
  · refine ⟨pathjoin (tmpdir_path env old_hint cleanup 1) adjust_path,
      [Event.mkTempDir (tmpdir_path env old_hint cleanup 1),
       Event.writeStuff (tmpdir_path env old_hint cleanup 1) use_tree],
      ?_, ?_, ?_⟩ <;> simp [stage_side, bodyEvent]

theorem locked_ok_direct (env : Env) (fl_len : Nat) (hasB2 in_working_tree : Bool)
    (wt1 fid0 : Nat) (old_hint : String) (cleanup use_tree : Bool)
    (adjust_path new_path : String) (delta : Delta) (tr : Trace) :
    ∃ res tail, old_side env fl_len hasB2 in_working_tree wt1 fid0 old_hint cleanup
        use_tree adjust_path new_path delta tr = (res, tr ++ tail) ∧
      tail.all bodyEvent = true ∧ (∃ v, res = Except.ok v) ∧
      Event.noDiffFound ∉ tail := by
  obtain ⟨op, tail, hos, hall, hnm⟩ := old_side_shape env fl_len hasB2 in_working_tree
    wt1 fid0 old_hint cleanup use_tree adjust_path new_path delta tr
  exact ⟨_, tail, hos, hall, ⟨_, rfl⟩, hnm⟩

theorem locked_ok_staged (env : Env) (fl_len : Nat) (hasB2 in_working_tree : Bool)
    (wt1 fid0 : Nat) (old_hint : String) (cleanup use_tree : Bool)
    (adjust_path hint : String) (delta : Delta) (tr : Trace) :
    ∃ res tail, old_side env fl_len hasB2 in_working_tree wt1 fid0 old_hint cleanup
        use_tree adjust_path
        (pathjoin (stage_side env hint cleanup use_tree 0 tr).1 adjust_path) delta
        ((stage_side env hint cleanup use_tree 0 tr).2) = (res, tr ++ tail) ∧
      tail.all bodyEvent = true ∧ (∃ v, res = Except.ok v) ∧
      Event.noDiffFound ∉ tail := by
  obtain ⟨op, tail, hos, hall, hnm⟩ := old_side_shape env fl_len hasB2 in_working_tree
    wt1 fid0 old_hint cleanup use_tree adjust_path
    (pathjoin (stage_side env hint cleanup use_tree 0 tr).1 adjust_path) delta
    ((stage_side env hint cleanup use_tree 0 tr).2)
  refine ⟨Except.ok (op, pathjoin (stage_side env hint cleanup use_tree 0 tr).1 adjust_path,
      delta),
    [Event.mkTempDir (tmpdir_path env hint cleanup 0),
      Event.writeStuff (tmpdir_path env hint cleanup 0) use_tree] ++ tail,
    ?_, ?_, ⟨_, rfl⟩, ?_⟩
  · rw [hos]
    simp [stage_side, List.append_assoc]
  · simp [bodyEvent, hall]
  · simp [bodyEvent, hnm]

/-- The delta/staging section emits only staging events and the empty-delta
signal; it signals `noDiffFound` exactly on the `NoDifferencesFound` exit. -/
theorem compare_locked_shape (env : Env) (fl_len : Nat) (rev2 : Option Nat) (b1 wt1 : Nat)
    (fids1 : List Nat) (fid0 : Nat) (second : Option (Nat × Nat × List Nat × Bool))
    (old_tree : Nat) (old_hint : String) (in_working_tree use_tree : Bool)
    (adjust_path : String) (cleanup : Bool) (tr : Trace) :
    ∃ res tail, compare_locked env fl_len rev2 b1 wt1 fids1 fid0 second old_tree old_hint
        in_working_tree use_tree adjust_path cleanup tr = (res, tr ++ tail) ∧
      tail.all bodyEvent = true ∧
      ((∃ v, res = Except.ok v) → Event.noDiffFound ∉ tail) ∧
      (res = Except.error Err.noDifferencesFound → Event.noDiffFound ∈ tail) ∧
      (∀ msg, res ≠ Except.error (Err.bzrCommandError msg)) := by
  unfold compare_locked
  have hpack : ∀ (res : Except Err (String × String × Delta)) (tail : Trace),
      tail.all bodyEvent = true → (∃ v, res = Except.ok v) → Event.noDiffFound ∉ tail →
      (((∃ v, res = Except.ok v) → Event.noDiffFound ∉ tail) ∧
        (res = Except.error Err.noDifferencesFound → Event.noDiffFound ∈ tail) ∧
        (∀ msg, res ≠ Except.error (Err.bzrCommandError msg))) := by
    rintro res tail _ ⟨v, hv⟩ hnm
    subst hv
    exact ⟨fun _ => hnm, by simp, by simp⟩
  cases rev2 with
  | some r2 =>
    dsimp only
    split
    next e tr2 heq =>
      rcases gds_shape env old_tree (env.revision_tree b1 r2) fids1 tr with ⟨d, hgds⟩ | hgds
      · rw [hgds] at heq; simp at heq
      · rw [hgds] at heq
        obtain ⟨he, ht⟩ := Prod.mk.injEq .. ▸ heq
        simp only [Except.error.injEq] at he
        subst he; subst ht
        exact ⟨_, [Event.noDiffFound], rfl, by simp [bodyEvent],
          by rintro ⟨v, hv⟩; simp at hv, fun _ => by simp, by simp⟩
    next delta tr2 heq =>
      rcases gds_shape env old_tree (env.revision_tree b1 r2) fids1 tr with ⟨d, hgds⟩ | hgds
      · rw [hgds] at heq
        obtain ⟨hd, ht⟩ := Prod.mk.injEq .. ▸ heq
        simp only [Except.ok.injEq] at hd
        subst hd; subst ht
        obtain ⟨res, tail, hrun, hall, hok, hnm⟩ := locked_ok_staged env fl_len second.isSome
          in_working_tree wt1 fid0 old_hint cleanup use_tree adjust_path
          ("-rev" ++ toString (env.in_history_revno b1 r2)) d tr
        exact ⟨res, tail, hrun, hall, hpack res tail hall hok hnm⟩
      · rw [hgds] at heq; simp at heq
  | none =>
    cases second with
    | some s =>
      obtain ⟨b2, wt2, fids2, b2wt⟩ := s
      dsimp only
      split
      · -- b2wt is true: branch 2 has a working tree
        split
        next e tr2 heq =>
          rcases gds_shape env old_tree wt2 fids2 tr with ⟨d, hgds⟩ | hgds
          · rw [hgds] at heq; simp at heq
          · rw [hgds] at heq
            obtain ⟨he, ht⟩ := Prod.mk.injEq .. ▸ heq
            simp only [Except.error.injEq] at he
            subst he; subst ht
            exact ⟨_, [Event.noDiffFound], rfl, by simp [bodyEvent],
              by rintro ⟨v, hv⟩; simp at hv, fun _ => by simp, by simp⟩
        next delta tr2 heq =>
          rcases gds_shape env old_tree wt2 fids2 tr with ⟨d, hgds⟩ | hgds
          · rw [hgds] at heq
            obtain ⟨hd, ht⟩ := Prod.mk.injEq .. ▸ heq
            simp only [Except.ok.injEq] at hd
            subst hd; subst ht
            split
            · split
              next hh =>
                exact ⟨Except.error Err.indexError, [], by simp, by simp,
                  by rintro ⟨v, hv⟩; simp at hv, by simp, by simp⟩
              next f2 hh =>
                obtain ⟨res, tail, hrun, hall, hok, hnm⟩ := locked_ok_direct env fl_len true
                  in_working_tree wt1 fid0 old_hint cleanup use_tree adjust_path
                  (env.id2abspath wt2 f2) d tr
                exact ⟨res, tail, hrun, hall, hpack res tail hall hok hnm⟩
            · obtain ⟨res, tail, hrun, hall, hok, hnm⟩ := locked_ok_direct env fl_len true
                in_working_tree wt1 fid0 old_hint cleanup use_tree adjust_path
                (env.abspath_root wt2) d tr
              exact ⟨res, tail, hrun, hall, hpack res tail hall hok hnm⟩
          · rw [hgds] at heq; simp at heq
      · -- b2wt is false: branch 2 has no working tree
        split
        next e tr2 heq =>
          rcases gds_shape env old_tree wt2 fids2 tr with ⟨d, hgds⟩ | hgds
          · rw [hgds] at heq; simp at heq
          · rw [hgds] at heq
            obtain ⟨he, ht⟩ := Prod.mk.injEq .. ▸ heq
            simp only [Except.error.injEq] at he
            subst he; subst ht
            exact ⟨_, [Event.noDiffFound], rfl, by simp [bodyEvent],
              by rintro ⟨v, hv⟩; simp at hv, fun _ => by simp, by simp⟩
        next delta tr2 heq =>
          rcases gds_shape env old_tree wt2 fids2 tr with ⟨d, hgds⟩ | hgds
          · rw [hgds] at heq
            obtain ⟨hd, ht⟩ := Prod.mk.injEq .. ▸ heq
            simp only [Except.ok.injEq] at hd
            subst hd; subst ht
            obtain ⟨res, tail, hrun, hall, hok, hnm⟩ := locked_ok_staged env fl_len true
              in_working_tree wt1 fid0 old_hint cleanup use_tree adjust_path
              ("-" ++ env.nick b2) d tr
            exact ⟨res, tail, hrun, hall, hpack res tail hall hok hnm⟩
          · rw [hgds] at heq; simp at heq
    | none =>
      dsimp only
      split
      · -- not in a working tree: stage the basis tree as the new side
        split
        next e tr2 heq =>
          rcases gds_shape env old_tree (env.basis_tree b1) fids1 tr with ⟨d, hgds⟩ | hgds
          · rw [hgds] at heq; simp at heq
          · rw [hgds] at heq
            obtain ⟨he, ht⟩ := Prod.mk.injEq .. ▸ heq
            simp only [Except.error.injEq] at he
            subst he; subst ht
            exact ⟨_, [Event.noDiffFound], rfl, by simp [bodyEvent],
              by rintro ⟨v, hv⟩; simp at hv, fun _ => by simp, by simp⟩
        next delta tr2 heq =>
          rcases gds_shape env old_tree (env.basis_tree b1) fids1 tr with ⟨d, hgds⟩ | hgds
          · rw [hgds] at heq
            obtain ⟨hd, ht⟩ := Prod.mk.injEq .. ▸ heq
            simp only [Except.ok.injEq] at hd
            subst hd; subst ht
            obtain ⟨res, tail, hrun, hall, hok, hnm⟩ := locked_ok_staged env fl_len false
              in_working_tree wt1 fid0 old_hint cleanup use_tree adjust_path "-basis" d tr
            exact ⟨res, tail, hrun, hall, hpack res tail hall hok hnm⟩
          · rw [hgds] at heq; simp at heq
      · -- items in the working tree: diff in place
        split
        next e tr2 heq =>
          rcases gds_shape env old_tree wt1 fids1 tr with ⟨d, hgds⟩ | hgds
          · rw [hgds] at heq; simp at heq
          · rw [hgds] at heq
            obtain ⟨he, ht⟩ := Prod.mk.injEq .. ▸ heq
            simp only [Except.error.injEq] at he
            subst he; subst ht
            exact ⟨_, [Event.noDiffFound], rfl, by simp [bodyEvent],
              by rintro ⟨v, hv⟩; simp at hv, fun _ => by simp, by simp⟩
        next delta tr2 heq =>
          rcases gds_shape env old_tree wt1 fids1 tr with ⟨d, hgds⟩ | hgds
          · rw [hgds] at heq
            obtain ⟨hd, ht⟩ := Prod.mk.injEq .. ▸ heq
            simp only [Except.ok.injEq] at hd
            subst hd; subst ht
            split
            · obtain ⟨res, tail, hrun, hall, hok, hnm⟩ := locked_ok_direct env fl_len false
                in_working_tree wt1 fid0 old_hint cleanup use_tree adjust_path
                (env.id2abspath wt1 fid0) d tr
              exact ⟨res, tail, hrun, hall, hpack res tail hall hok hnm⟩
            · obtain ⟨res, tail, hrun, hall, hok, hnm⟩ := locked_ok_direct env fl_len false
                in_working_tree wt1 fid0 old_hint cleanup use_tree adjust_path
                (env.abspath_root wt1) d tr
              exact ⟨res, tail, hrun, hall, hpack res tail hall hok hnm⟩
          · rw [hgds] at heq; simp at heq

theorem body_err_tail_facts (L : List Nat) (tailL : Trace)
    (hall : tailL.all bodyEvent = true) (hlock : 0 < L.length) :
    netLock (L.map Event.lockRead ++ (tailL ++ L.map Event.unlock)) = 0 ∧
    lockDiscipline 0 (L.map Event.lockRead ++ (tailL ++ L.map Event.unlock)) = true ∧
    (L.map Event.lockRead ++ (tailL ++ L.map Event.unlock)).any isToolRun = false := by
  have h0 : netLock tailL = 0 := netLock_bodyEvents tailL hall
  refine ⟨?_, ?_, ?_⟩
  · simp only [netLock_append, netLock_locks, netLock_unlocks, h0]
    omega
  · simp only [lockDiscipline_append, lockDiscipline_locks, lockDiscipline_unlocks,
      netLock_locks, h0, Bool.true_and, Bool.and_true, zero_add, add_zero]
    exact lockDiscipline_bodyEvents tailL _ hall (by exact_mod_cast hlock)
  · simp only [List.any_append, no_tool_locks, no_tool_unlocks,
      no_tool_bodyEvents tailL hall, Bool.or_self]

theorem body_ok_tail_facts (L : List Nat) (tailL : Trace) (op np : String)
    (pl : Option (List String)) (hall : tailL.all bodyEvent = true)
    (hnm : Event.noDiffFound ∉ tailL) (hlock : 0 < L.length) :
    netLock (L.map Event.lockRead
      ++ (tailL ++ (L.map Event.unlock ++ [Event.toolRun op np pl]))) = 0 ∧
    lockDiscipline 0 (L.map Event.lockRead
      ++ (tailL ++ (L.map Event.unlock ++ [Event.toolRun op np pl]))) = true ∧
    (L.map Event.lockRead
      ++ (tailL ++ (L.map Event.unlock ++ [Event.toolRun op np pl]))).any isToolRun = true ∧
    Event.noDiffFound ∉ (L.map Event.lockRead
      ++ (tailL ++ (L.map Event.unlock ++ [Event.toolRun op np pl]))) := by
  have h0 : netLock tailL = 0 := netLock_bodyEvents tailL hall
  refine ⟨?_, ?_, ?_, ?_⟩
  · simp only [netLock_append, netLock_locks, netLock_unlocks, h0, netLock]
    omega
  · simp only [lockDiscipline_append, lockDiscipline_locks, lockDiscipline_unlocks,
      netLock_locks, netLock_unlocks, h0, Bool.true_and, Bool.and_true, zero_add, add_zero,
      Bool.and_eq_true]
    refine ⟨lockDiscipline_bodyEvents tailL _ hall (by exact_mod_cast hlock), ?_⟩
    have hz : (L.length : Int) + -(L.length : Int) = 0 := by omega
    rw [hz]
    simp [lockDiscipline]
  · simp [List.any_append, isToolRun]
  · simp only [List.mem_append, List.mem_singleton]
    push_neg
    exact ⟨noDiff_not_mem_locks L, hnm, noDiff_not_mem_unlocks L, by simp⟩

/-- The body of `compare_using` (from old-tree selection through the tool
invocation): the trace tail it appends is lock-balanced and lock-disciplined,
a successful run returns result 1 after exactly one tool invocation, the
empty-delta exit signals `noDiffFound` and never runs the tool, and no usage
error originates here. -/
theorem compare_body_shape (env : Env) (tool : Tool) (file_list : List String)
    (rev1 rev2 : Option Nat) (b1 wt1 : Nat) (fids1 : List Nat) (fid0 : Nat)
    (second : Option (Nat × Nat × List Nat × Bool)) (trees_to_lock : List Nat)
    (in_subdir in_working_tree use_tree : Bool) (adjust_path : String)
    (cleanup : Bool) (tr : Trace) (hlock : 0 < trees_to_lock.length) :
    ∃ res tail, compare_body env tool file_list rev1 rev2 b1 wt1 fids1 fid0 second
        trees_to_lock in_subdir in_working_tree use_tree adjust_path cleanup tr
        = (res, tr ++ tail) ∧
      netLock tail = 0 ∧ lockDiscipline 0 tail = true ∧
      (∀ v, res = Except.ok v →
        v = 1 ∧ tail.any isToolRun = true ∧ Event.noDiffFound ∉ tail) ∧
      (res = Except.error Err.noDifferencesFound →
        Event.noDiffFound ∈ tail ∧ tail.any isToolRun = false) ∧
      (∀ msg, res ≠ Except.error (Err.bzrCommandError msg)) := by
  unfold compare_body
  obtain ⟨resL, tailL, hrun, hall, hok, hnd, hcmd⟩ := compare_locked_shape env
    file_list.length rev2 b1 wt1 fids1 fid0 second
    (old_selection env rev1 b1 wt1 second).1 (old_selection env rev1 b1 wt1 second).2
    in_working_tree use_tree adjust_path cleanup (tr ++ trees_to_lock.map Event.lockRead)
  rw [hrun]
  cases resL with
  | error e =>
    dsimp only
    obtain ⟨hnet, hdisc, htool⟩ := body_err_tail_facts trees_to_lock tailL hall hlock
    refine ⟨Except.error e,
      trees_to_lock.map Event.lockRead ++ (tailL ++ trees_to_lock.map Event.unlock),
      by simp [List.append_assoc], hnet, hdisc, by simp, ?_, ?_⟩
    · intro he
      injection he with he2
      subst he2
      refine ⟨?_, htool⟩
      have := hnd rfl
      simp [this]
    · intro msg hmsg
      injection hmsg with hmsg2
      exact hcmd msg (by rw [hmsg2])
  | ok v =>
    obtain ⟨old_path, new_path, delta⟩ := v
    dsimp only
    have hnm : Event.noDiffFound ∉ tailL := hok ⟨_, rfl⟩
    split
    · obtain ⟨hnet, hdisc, htool, hmem⟩ := body_ok_tail_facts trees_to_lock tailL
        old_path new_path (some (iterative_path_list adjust_path delta)) hall hnm hlock
      refine ⟨Except.ok (override_result env.tool_exit),
        trees_to_lock.map Event.lockRead
          ++ (tailL ++ (trees_to_lock.map Event.unlock
            ++ [Event.toolRun old_path new_path
                  (some (iterative_path_list adjust_path delta))])),
        by simp [List.append_assoc], hnet, hdisc, ?_, by simp, by simp⟩
      intro w hw
      injection hw with hw2
      exact ⟨hw2.symm.trans rfl, htool, hmem⟩
    · obtain ⟨hnet, hdisc, htool, hmem⟩ := body_ok_tail_facts trees_to_lock tailL
        old_path new_path none hall hnm hlock
      refine ⟨Except.ok (override_result env.tool_exit),
        trees_to_lock.map Event.lockRead
          ++ (tailL ++ (trees_to_lock.map Event.unlock
            ++ [Event.toolRun old_path new_path none])),
        by simp [List.append_assoc], hnet, hdisc, ?_, by simp, by simp⟩
      intro w hw
      injection hw with hw2
      exact ⟨hw2.symm.trans rfl, htool, hmem⟩

theorem main_tail_facts (L : List Nat) (tailB : Trace) (hnet : netLock tailB = 0)
    (hdisc : lockDiscipline 0 tailB = true) :
    netLock (L.map Event.lockRead ++ (L.map Event.unlock ++ tailB)) = 0 ∧
    lockDiscipline 0 (L.map Event.lockRead ++ (L.map Event.unlock ++ tailB)) = true := by
  constructor
  · simp only [netLock_append, netLock_locks, netLock_unlocks, hnet]
    omega
  · simp only [lockDiscipline_append, lockDiscipline_locks, lockDiscipline_unlocks,
      netLock_locks, netLock_unlocks, Bool.true_and, zero_add]
    have hz : (L.length : Int) + -(L.length : Int) = 0 := by omega
    rw [hz, hdisc]

/-- `compare_main` appends a balanced, lock-disciplined tail; a successful
run either reports 0 with the empty-delta signal in the trace and no tool
invocation, or reports 1 with a tool invocation and no empty-delta signal;
and it never raises a usage error. -/
theorem compare_main_shape (env : Env) (tool : Tool) (file_list : List String)
    (rev1 rev2 : Option Nat) (b1 wt1 : Nat) (fids1 : List Nat)
    (second : Option (Nat × Nat × List Nat × Bool)) (tr : Trace) :
    ∃ res tail, compare_main env tool file_list rev1 rev2 b1 wt1 fids1 second tr
        = (res, tr ++ tail) ∧
      netLock tail = 0 ∧ lockDiscipline 0 tail = true ∧
      (∀ v, res = Except.ok v →
        (v = 0 ∧ Event.noDiffFound ∈ tail ∧ tail.any isToolRun = false) ∨
        (v = 1 ∧ tail.any isToolRun = true ∧ Event.noDiffFound ∉ tail)) ∧
      (∀ msg, res ≠ Except.error (Err.bzrCommandError msg)) := by
  unfold compare_main
  split
  · -- file_ids1 is empty: IndexError inside the first lock bracket
    obtain ⟨hnet, hdisc⟩ := main_tail_facts (trees_to_lock_of wt1 second) [] rfl rfl
    refine ⟨Except.error Err.indexError,
      (trees_to_lock_of wt1 second).map Event.lockRead
        ++ ((trees_to_lock_of wt1 second).map Event.unlock ++ []),
      by simp [List.append_assoc], hnet, hdisc, by simp, by simp⟩
  next fid0 hfid =>
    have hlock : 0 < (trees_to_lock_of wt1 second).length := by
      simp [trees_to_lock_of]
    obtain ⟨resB, tailB, hrunB, hnetB, hdiscB, hokB, hndB, hcmdB⟩ :=
      compare_body_shape env tool file_list rev1 rev2 b1 wt1 fids1 fid0 second
        (trees_to_lock_of wt1 second)
        (in_subdir_of env wt1 fid0) (env.is_working_tree wt1)
        (use_tree_mode file_list.length (in_subdir_of env wt1 fid0) second.isSome)
        (adjust_path_of env file_list wt1 fid0 second)
        tool.supports_cleanup
        ((tr ++ (trees_to_lock_of wt1 second).map Event.lockRead)
          ++ (trees_to_lock_of wt1 second).map Event.unlock) hlock
    rw [hrunB]
    obtain ⟨hnet, hdisc⟩ := main_tail_facts (trees_to_lock_of wt1 second) tailB hnetB hdiscB
    have htailEq : ((tr ++ (trees_to_lock_of wt1 second).map Event.lockRead)
        ++ (trees_to_lock_of wt1 second).map Event.unlock) ++ tailB
        = tr ++ ((trees_to_lock_of wt1 second).map Event.lockRead
            ++ ((trees_to_lock_of wt1 second).map Event.unlock ++ tailB)) := by
      simp [List.append_assoc]
    have hmemEq : ∀ (ev : Event), ev ∈ ((trees_to_lock_of wt1 second).map Event.lockRead
        ++ ((trees_to_lock_of wt1 second).map Event.unlock ++ tailB))
        ↔ (ev ∈ (trees_to_lock_of wt1 second).map Event.lockRead
            ∨ ev ∈ (trees_to_lock_of wt1 second).map Event.unlock ∨ ev ∈ tailB) := by
      intro ev
      simp [List.mem_append]
    cases resB with
    | error e =>
      cases e with
      | noDifferencesFound =>
        dsimp only
        obtain ⟨hmem, htool⟩ := hndB rfl
        refine ⟨Except.ok 0,
          (trees_to_lock_of wt1 second).map Event.lockRead
            ++ ((trees_to_lock_of wt1 second).map Event.unlock ++ tailB),
          htailEq ▸ rfl, hnet, hdisc, ?_, by simp⟩
        intro v hv
        injection hv with hv2
        refine Or.inl ⟨hv2.symm, ?_, ?_⟩
        · exact (hmemEq Event.noDiffFound).mpr (Or.inr (Or.inr hmem))
        · simp only [List.any_append, no_tool_locks, no_tool_unlocks, htool, Bool.or_self]
      | bzrCommandError msg => exact absurd rfl (hcmdB msg)
      | notVersioned p =>
        dsimp only
        exact ⟨Except.error (Err.notVersioned p),
          (trees_to_lock_of wt1 second).map Event.lockRead
            ++ ((trees_to_lock_of wt1 second).map Event.unlock ++ tailB),
          htailEq ▸ rfl, hnet, hdisc, by simp, by simp⟩
      | pathNotChild =>
        dsimp only
        exact ⟨Except.error Err.pathNotChild,
          (trees_to_lock_of wt1 second).map Event.lockRead
            ++ ((trees_to_lock_of wt1 second).map Event.unlock ++ tailB),
          htailEq ▸ rfl, hnet, hdisc, by simp, by simp⟩
      | bzrError msg =>
        dsimp only
        exact ⟨Except.error (Err.bzrError msg),
          (trees_to_lock_of wt1 second).map Event.lockRead
            ++ ((trees_to_lock_of wt1 second).map Event.unlock ++ tailB),
          htailEq ▸ rfl, hnet, hdisc, by simp, by simp⟩
      | indexError =>
        dsimp only
        exact ⟨Except.error Err.indexError,
          (trees_to_lock_of wt1 second).map Event.lockRead
            ++ ((trees_to_lock_of wt1 second).map Event.unlock ++ tailB),
          htailEq ▸ rfl, hnet, hdisc, by simp, by simp⟩
    | ok v =>
      dsimp only
      obtain ⟨hv1, htool, hmem⟩ := hokB v rfl
      refine ⟨Except.ok v,
        (trees_to_lock_of wt1 second).map Event.lockRead
          ++ ((trees_to_lock_of wt1 second).map Event.unlock ++ tailB),
        htailEq ▸ rfl, hnet, hdisc, ?_, by simp⟩
      intro w hw
      injection hw with hw2
      subst hw2
      refine Or.inr ⟨hv1, ?_, ?_⟩
      · simp only [List.any_append, no_tool_locks, no_tool_unlocks, htool, Bool.or_self,
          Bool.or_true]
      · rw [hmemEq]
        push_neg
        exact ⟨noDiff_not_mem_locks _, noDiff_not_mem_unlocks _, hmem⟩

theorem neutral_tail_facts (tail : Trace)
    (h : tail = [] ∨ ∃ t, tail = [Event.lockRead t, Event.unlock t]) :
    netLock tail = 0 ∧ (∀ d, lockDiscipline d tail = true) ∧
    tail.all isLockEvent = true ∧ tail.any isToolRun = false ∧
    Event.noDiffFound ∉ tail := by
  rcases h with rfl | ⟨t, rfl⟩
  · exact ⟨rfl, fun d => rfl, rfl, rfl, by simp⟩
  · refine ⟨?_, fun d => ?_, ?_, ?_, ?_⟩
    · simp [netLock]
    · simp [lockDiscipline]
    · simp [isLockEvent]
    · simp [isToolRun]
    · simp

/-- Master characterisation of a `compare_using` run: the trace is
lock-balanced and lock-disciplined (every snapshot write under a read lock,
every tool invocation with no lock held); a normal return is 0 with the
empty-delta signal and no tool invocation, or 1 with a tool invocation and
no empty-delta signal; a usage error leaves a trace of lock events only. -/
theorem compare_using_shape (env : Env) (tool : Tool) (fl : List String)
    (rev1 rev2 : Option Nat) (tr : Trace) :
    ∃ res tail, compare_using env tool fl rev1 rev2 tr = (res, tr ++ tail) ∧
      netLock tail = 0 ∧ lockDiscipline 0 tail = true ∧
      (∀ v, res = Except.ok v →
        (v = 0 ∧ Event.noDiffFound ∈ tail ∧ tail.any isToolRun = false) ∨
        (v = 1 ∧ tail.any isToolRun = true ∧ Event.noDiffFound ∉ tail)) ∧
      (∀ msg, res = Except.error (Err.bzrCommandError msg) →
        tail.all isLockEvent = true) := by
  unfold compare_using
  obtain ⟨res1, tail1, hrun1, hshape1, hcmd1, _⟩ := gtf_shape env fl tr
  rw [hrun1]
  obtain ⟨hnet1, hdisc1, hlockev1, htool1, hnm1⟩ := neutral_tail_facts tail1 hshape1
  cases res1 with
  | error e =>
    dsimp only
    exact ⟨Except.error e, tail1, rfl, hnet1, hdisc1 0, by simp, fun msg _ => hlockev1⟩
  | ok q =>
    obtain ⟨b1, wt1, fids1, remainder⟩ := q
    dsimp only
    split
    · -- a remainder is present: resolve the second branch
      obtain ⟨res2, tail2, hrun2, hshape2, hcmd2, _⟩ := gtf_shape env remainder (tr ++ tail1)
      rw [hrun2]
      obtain ⟨hnet2, hdisc2, hlockev2, htool2, hnm2⟩ := neutral_tail_facts tail2 hshape2
      cases res2 with
      | error e =>
        dsimp only
        refine ⟨Except.error e, tail1 ++ tail2, by simp [List.append_assoc], ?_, ?_, by simp,
          fun msg _ => by simp [List.all_append, hlockev1, hlockev2]⟩
        · simp only [netLock_append, hnet1, hnet2]; omega
        · simp only [lockDiscipline_append, hnet1, zero_add, hdisc1 0, hdisc2 0,
            Bool.and_self]
      | ok q2 =>
        obtain ⟨b2, wt2, fids2, remainder2⟩ := q2
        dsimp only
        split
        · -- more than two branches
          refine ⟨Except.error (Err.bzrCommandError "Cannot compare more than two branches"),
            tail1 ++ tail2, by simp [List.append_assoc], ?_, ?_, by simp, ?_⟩
          · simp only [netLock_append, hnet1, hnet2]; omega
          · simp only [lockDiscipline_append, hnet1, zero_add, hdisc1 0, hdisc2 0,
              Bool.and_self]
          · intro msg _
            simp [List.all_append, hlockev1, hlockev2]
        · split
          · -- -r together with two branches
            refine ⟨Except.error (Err.bzrCommandError "Cannot specify -r with multiple branches"),
              tail1 ++ tail2, by simp [List.append_assoc], ?_, ?_, by simp, ?_⟩
            · simp only [netLock_append, hnet1, hnet2]; omega
            · simp only [lockDiscipline_append, hnet1, zero_add, hdisc1 0, hdisc2 0,
                Bool.and_self]
            · intro msg _
              simp [List.all_append, hlockev1, hlockev2]
          · -- two-branch comparison
            obtain ⟨resM, tailM, hrunM, hnetM, hdiscM, hokM, hcmdM⟩ :=
              compare_main_shape env tool fl rev1 rev2 b1 wt1 fids1
                (some (b2, wt2, fids2, env.is_working_tree wt2)) ((tr ++ tail1) ++ tail2)
            rw [hrunM]
            refine ⟨resM, (tail1 ++ tail2) ++ tailM, by simp [List.append_assoc], ?_, ?_, ?_,
              fun msg hmsg => absurd hmsg (hcmdM msg)⟩
            · simp only [netLock_append, hnet1, hnet2, hnetM]; omega
            · simp only [lockDiscipline_append, netLock_append, hnet1, hnet2, zero_add,
                add_zero, hdisc1 0, hdisc2 0, hdiscM, Bool.and_self]
            · intro v hv
              rcases hokM v hv with ⟨h0, hmem, htool⟩ | ⟨h1, htool, hmem⟩
              · refine Or.inl ⟨h0, by simp [hmem], ?_⟩
                simp [List.any_append, htool1, htool2, htool]
              · refine Or.inr ⟨h1, ?_, ?_⟩
                · simp [List.any_append, htool]
                · simp [List.mem_append, hnm1, hnm2, hmem]
    · -- single branch
      obtain ⟨resM, tailM, hrunM, hnetM, hdiscM, hokM, hcmdM⟩ :=
        compare_main_shape env tool fl rev1 rev2 b1 wt1 fids1 none (tr ++ tail1)
      rw [hrunM]
      refine ⟨resM, tail1 ++ tailM, by simp [List.append_assoc], ?_, ?_, ?_,
        fun msg hmsg => absurd hmsg (hcmdM msg)⟩
      · simp only [netLock_append, hnet1, hnetM]; omega
      · simp only [lockDiscipline_append, hnet1, zero_add, hdisc1 0, hdiscM, Bool.and_self]
      · intro v hv
        rcases hokM v hv with ⟨h0, hmem, htool⟩ | ⟨h1, htool, hmem⟩
        · refine Or.inl ⟨h0, by simp [hmem], ?_⟩
          simp [List.any_append, htool1, htool]
        · refine Or.inr ⟨h1, ?_, ?_⟩
          · simp [List.any_append, htool]
          · simp [List.mem_append, hnm1, hmem]

/-- When the pattern is a prefix of the string, Python's
`replace(pat, repl, 1)` replaces exactly that leading occurrence. -/
theorem replaceFirstChars_leading (s pat repl : List Char)
    (hp : pat.isPrefixOf s = true) :
    replaceFirstChars s pat repl = repl ++ s.drop pat.length := by
  cases s with
  | nil =>
    have hpat : pat = [] := by
      cases pat with
      | nil => rfl
      | cons c r => simp [List.isPrefixOf] at hp
    subst hpat
    simp [replaceFirstChars]
  | cons c rest => simp [replaceFirstChars, hp]

/-- Every directory allocated by `NamedTemporaryDir.__init__` carries the
`_tmp` marker, whatever unique component the OS inserted. -/
theorem mkdtempPath_endsWith (pfx sfx rand : String) :
    strEndsWith (mkdtempPath pfx (sfx ++ "_tmp") rand) "_tmp" = true := by
  unfold strEndsWith mkdtempPath
  simp only [String.data_append, List.isSuffixOf_iff_suffix]
  refine ⟨"/tmp/".data ++ pfx.data ++ rand.data ++ sfx.data, ?_⟩
  simp [List.append_assoc]

/- ------------------------------------------------------------------ -/
/- Concrete environments for counterexamples and witnesses             -/
/- ------------------------------------------------------------------ -/

/-- A degenerate repository environment; the concrete scenarios below
override the fields they care about.  `tool_exit = 7` keeps the external
tool's exit status visibly different from the controller's result codes. -/
def baseEnv : Env := {
  wt_open_containing := fun _ => WtOpen.noWorkingTree
  br_open_containing := fun _ => (0, "")
  tree_branch := fun _ => 0
  get_root_id := fun _ => 0
  id2abspath := fun _ _ => ""
  branch_base := fun _ => ""
  basis_tree := fun _ => 0
  path2id := fun _ _ => none
  relpath := fun _ _ => none
  is_local := fun _ => true
  get_file_kind := fun _ _ => "file"
  is_working_tree := fun _ => false
  id2path := fun _ _ => ""
  has_id := fun _ _ => false
  changes_from := fun _ _ _ => emptyDelta
  abspath_root := fun _ => ""
  nick := fun _ => ""
  in_history_revno := fun _ _ => 0
  revision_tree := fun _ _ => 0
  mkdtemp_rand := fun _ => "R"
  tool_exit := 7 }

/-- A recursive tree-diff tool (e.g. meld). -/
def treeTool : Tool := { recursive := true, supports_cleanup := true }

/-- A non-recursive list-diff tool (e.g. vimdiff). -/
def listTool : Tool := { recursive := false, supports_cleanup := true }

/-- Single path inside a working tree whose restricted delta is empty:
`compare_using` takes the empty-delta exit. -/
def envC1 : Env := { baseEnv with
  wt_open_containing := fun _ => WtOpen.okWt 1 ""
  path2id := fun _ p => if p = "" then some 3 else none
  is_working_tree := fun t => t == 1 }

/-- Single directory path inside a working tree with a modified file: the
old side is staged into a temporary directory while the read lock is held. -/
def envC2 : Env := { baseEnv with
  wt_open_containing := fun _ => WtOpen.okWt 1 "sub"
  path2id := fun _ p => if p = "sub" then some 3 else none
  is_working_tree := fun t => t == 1
  get_file_kind := fun _ _ => "directory"
  id2path := fun _ _ => "sub"
  has_id := fun _ _ => true
  id2abspath := fun _ _ => "/wt1/sub"
  basis_tree := fun _ => 2
  changes_from := fun _ _ _ => { emptyDelta with
    modified := [⟨"sub/x", 3, "file", true, false⟩] } }

/-- Requested item 5 exists in the old snapshot (tree 0) at "old/p" but was
deleted in the new snapshot (tree 1). -/
def envC3 : Env := { baseEnv with
  has_id := fun t fid => t == 0 && fid == 5
  id2path := fun t fid => if t == 0 && fid == 5 then "old/p" else "" }

/-- Two paths resolving to two different branches (trees 1 and 2). -/
def envC4 : Env := { baseEnv with
  wt_open_containing := fun p => if p = "p1" then WtOpen.okWt 1 "rp" else WtOpen.okWt 2 "rq"
  tree_branch := fun t => t * 10
  id2abspath := fun t _ => if t = 1 then "base1" else "base2"
  path2id := fun t p =>
    if t = 1 && p = "rp" then some 7
    else if t = 2 && p = "rq" then some 8 else none
  relpath := fun _ _ => none
  is_working_tree := fun _ => true }

/-- The second path "q2" resolves to no tracked id and its transport is not
local. -/
def envC5 : Env := { baseEnv with
  wt_open_containing := fun _ => WtOpen.okWt 1 "rp"
  id2abspath := fun _ _ => "base1"
  path2id := fun _ p => if p = "rp" then some 7 else none
  relpath := fun _ f => some f
  is_local := fun f => f != "q2" }

/-- Two branches, both with working trees; the adjustment prefix "a" (the
directory's path in branch 1) occurs in the delta path "data/x" only in a
non-leading position. -/
def envC6 : Env := { baseEnv with
  wt_open_containing := fun p => if p = "p" then WtOpen.okWt 1 "rp" else WtOpen.okWt 2 "rq"
  tree_branch := fun t => t * 10
  id2abspath := fun t _ => if t = 1 then "base1" else "base2"
  path2id := fun t p =>
    if t = 1 && p = "rp" then some 7
    else if t = 2 && p = "rq" then some 9 else none
  relpath := fun _ _ => none
  is_working_tree := fun _ => true
  get_file_kind := fun _ _ => "directory"
  id2path := fun t _ => if t = 1 then "a" else "data/x"
  has_id := fun _ _ => true
  abspath_root := fun t => if t = 1 then "wt1root" else "wt2root"
  changes_from := fun _ _ _ => { emptyDelta with
    modified := [⟨"data/x", 9, "file", true, false⟩] } }

/-- The trace of the `envC2` run (old side staged under lock, then the
recursive tool invoked). -/
def c2tr : Trace :=
  [Event.lockRead 1, Event.unlock 1, Event.lockRead 1, Event.unlock 1,
   Event.lockRead 1, Event.mkTempDir "/tmp/bzr_diff-R-basis_tmp",
   Event.writeStuff "/tmp/bzr_diff-R-basis_tmp" true, Event.unlock 1,
   Event.toolRun "/tmp/bzr_diff-R-basis_tmp/sub" "/wt1/sub" none]

/-- The trace of the `envC4` run (both branches resolved, then the usage
error raised). -/
def c4tr : Trace :=
  [Event.lockRead 1, Event.unlock 1, Event.lockRead 2, Event.unlock 2]

/- ------------------------------------------------------------------ -/
/- Claim theorems                                                      -/
/- ------------------------------------------------------------------ -/

/-- C1: whenever `compare_using` returns normally, its integer result is 0
exactly when the delta computation signalled "nothing to compare"
(`noDiffFound` in the trace, and the external tool was never invoked), and
otherwise the result is the fixed value 1 — in particular the external
tool's own exit status (`env.tool_exit`, arbitrary here) is overridden once
the tool has run. -/
theorem C1_result_code (env : Env) (tool : Tool) (fl : List String)
    (rev1 rev2 : Option Nat) (r : Int) (tr : Trace)
    (h : compare_using env tool fl rev1 rev2 [] = (Except.ok r, tr)) :
    (r = 0 ∧ Event.noDiffFound ∈ tr ∧ tr.any isToolRun = false) ∨
    (r = 1 ∧ tr.any isToolRun = true ∧ Event.noDiffFound ∉ tr) := by
  obtain ⟨res, tail, hrun, _, _, hok, _⟩ := compare_using_shape env tool fl rev1 rev2 []
  rw [h] at hrun
  obtain ⟨h1, h2⟩ := Prod.mk.injEq .. ▸ hrun
  simp only [List.nil_append] at h2
  subst h2
  exact hok r h1.symm

/-- C1 witness: for the concrete `envC2` run the tool executes and the
result is the override value 1 although the tool process reported 7. -/
theorem C1_result_code_witness :
    ((1 : Int) = 0 ∧ Event.noDiffFound ∈ c2tr ∧ c2tr.any isToolRun = false) ∨
    ((1 : Int) = 1 ∧ c2tr.any isToolRun = true ∧ Event.noDiffFound ∉ c2tr) :=
  C1_result_code envC2 treeTool ["f"] none none 1 c2tr (by decide)

/-- C2 counterexample: in this comparison, which proceeds past delta
computation and returns normally, a snapshot write into the staging
directory happens while the read lock acquired for delta computation is
still held — refuting the claim that all read locks are released before
any staging-area writing begins. -/
theorem C2_write_under_lock_counterexample :
    (compare_using envC2 treeTool ["f"] none none []).1 = Except.ok 1 ∧
    writeWhileLocked 0 (compare_using envC2 treeTool ["f"] none none []).2 = true := by
  decide

/-- C2 (amended): in every `compare_using` run, snapshot writes into staging
directories happen while at least one read lock is held, and the external
tool is only ever invoked with no read lock held (the locks are released
before the tool starts, not before staging). -/
theorem C2_lock_discipline (env : Env) (tool : Tool) (fl : List String)
    (rev1 rev2 : Option Nat) :
    lockDiscipline 0 (compare_using env tool fl rev1 rev2 []).2 = true := by
  obtain ⟨res, tail, hrun, _, hdisc, _, _⟩ := compare_using_shape env tool fl rev1 rev2 []
  rw [hrun]
  simpa using hdisc

/-- C3 counterexample: requested item 5 was deleted in the new snapshot
(tree 1) but exists in the old snapshot (tree 0) at "old/p"; the restricted
path set handed to delta computation is empty, so the deletion is *not*
represented via the old snapshot's path, refuting the claim. -/
theorem C3_deleted_item_counterexample :
    envC3.has_id 0 5 = true ∧ envC3.id2path 0 5 = "old/p" ∧
    envC3.has_id 1 5 = false ∧ gds_path_list envC3 1 [5] = [] := by
  decide

/-- C3 (amended): the restricted path set handed to delta computation
contains exactly the new-snapshot paths of the requested ids that are still
present in the new snapshot; requested ids deleted in the new snapshot are
omitted entirely (their old-snapshot path is not included, so their deletion
cannot appear in the restricted delta). -/
theorem C3_restricted_path_list (env : Env) (new_tree : Nat) (fids : List Nat)
    (p : String) :
    p ∈ gds_path_list env new_tree fids ↔
      ∃ fid, fid ∈ fids ∧ env.has_id new_tree fid = true
        ∧ p = env.id2path new_tree fid := by
  unfold gds_path_list
  constructor
  · intro hp
    obtain ⟨fid, hfid, hmap⟩ := List.mem_map.mp hp
    obtain ⟨hmem, hhas⟩ := List.mem_filter.mp hfid
    exact ⟨fid, hmem, hhas, hmap.symm⟩
  · rintro ⟨fid, hmem, hhas, rfl⟩
    exact List.mem_map.mpr ⟨fid, List.mem_filter.mpr ⟨hmem, hhas⟩, rfl⟩

/-- C4 counterexample: two paths from two different branches together with a
revision specifier do raise the usage error, but only after a read lock was
acquired (and released) on each branch during location resolution — refuting
the claim that the error precedes any read-lock acquisition. -/
theorem C4_lock_before_error_counterexample :
    compare_using envC4 treeTool ["p1", "q2"] (some 0) none []
      = (Except.error (Err.bzrCommandError "Cannot specify -r with multiple branches"),
         c4tr) ∧
    Event.lockRead 1 ∈ c4tr := by
  decide

/-- C4 (amended): whenever `compare_using` aborts with the
two-branches-with-`-r` usage error, the trace up to the error consists of
lock events only (so no staging area was created, nothing was written, and
no tool ran) and every acquired read lock has been released; the transient
read locks of location resolution do precede the error. -/
theorem C4_usage_error_trace (env : Env) (tool : Tool) (fl : List String)
    (rev1 rev2 : Option Nat) (tr : Trace)
    (h : compare_using env tool fl rev1 rev2 [] =
      (Except.error (Err.bzrCommandError "Cannot specify -r with multiple branches"), tr)) :
    tr.all isLockEvent = true ∧ netLock tr = 0 := by
  obtain ⟨res, tail, hrun, hnet, _, _, hcmd⟩ := compare_using_shape env tool fl rev1 rev2 []
  rw [h] at hrun
  obtain ⟨h1, h2⟩ := Prod.mk.injEq .. ▸ hrun
  simp only [List.nil_append] at h2
  subst h2
  exact ⟨hcmd _ h1.symm, hnet⟩

/-- C4 witness: the concrete two-branch run with a revision specifier. -/
theorem C4_usage_error_trace_witness :
    c4tr.all isLockEvent = true ∧ netLock c4tr = 0 :=
  C4_usage_error_trace envC4 treeTool ["p1", "q2"] (some 0) none c4tr (by decide)

/-- C5 counterexample: the second path "q2" resolves to no tracked id and is
not locally accessible, yet `get_tree_files` returns successfully with "q2"
in the remainder — no "belongs to a different location" error is raised to
the caller, refuting the claim. -/
theorem C5_nonlocal_no_raise_counterexample :
    envC5.path2id 1 "q2" = none ∧ envC5.is_local "q2" = false ∧
    get_tree_files envC5 ["p1", "q2"] []
      = (Except.ok (0, 1, [7], ["q2"]), [Event.lockRead 1, Event.unlock 1]) := by
  decide

/-- C5 (amended): in the location-resolution loop, an unmatched path that is
locally accessible raises the "not tracked" (NotVersionedError) error to the
caller; an unmatched path that is not locally accessible raises no error to
the caller — the internal PathNotChild is caught, consumption stops, and the
path (with its successors) is returned as the unconsumed remainder. -/
theorem C5_unmatched_paths (env : Env) (tree branch1 : Nat)
    (base_path : Option String) (rel_path rpath : String) (isFirst : Bool)
    (fn : String) (rest : List String) (acc : List Nat)
    (hr : gtf_rpath env branch1 base_path rel_path isFirst fn = Except.ok rpath)
    (hid : env.path2id tree rpath = none) :
    (env.is_local fn = true →
      gtf_loop env tree branch1 base_path rel_path (fn :: rest) isFirst acc
        = Except.error (Err.notVersioned fn)) ∧
    (env.is_local fn = false →
      gtf_loop env tree branch1 base_path rel_path (fn :: rest) isFirst acc
        = Except.ok (acc, fn :: rest)) := by
  constructor <;> intro hl <;>
    simp only [gtf_loop, gtf_step, hr, hid, hl, Bool.not_true, Bool.not_false,
      Bool.false_eq_true, if_false, if_true]

/-- C5 witness: the concrete unmatched non-local path "q2". -/
theorem C5_unmatched_paths_witness :
    (envC5.is_local "q2" = true →
      gtf_loop envC5 1 0 (some "base1") "rp" ["q2"] false [7]
        = Except.error (Err.notVersioned "q2")) ∧
    (envC5.is_local "q2" = false →
      gtf_loop envC5 1 0 (some "base1") "rp" ["q2"] false [7]
        = Except.ok ([7], ["q2"])) :=
  C5_unmatched_paths envC5 1 0 (some "base1") "rp" "q2" false "q2" [] [7]
    (by decide) (by decide)

/-- C6 counterexample: in this two-branch run the adjustment prefix is "a"
and the delta's only text-modified path is "data/x"; the program hands the
tool the list ["d.ta/x"] — Python's `replace(prefix, '.', 1)` rewrote the
first occurrence of "a" *inside* the path, not a leading occurrence (the
spec's leading-occurrence reading would have left "data/x" unchanged). -/
theorem C6_nonleading_replace_counterexample :
    (compare_using envC6 listTool ["p", "q"] none none []).2.any
      (fun e => e == Event.toolRun "wt1root" "wt2root" (some ["d.ta/x"])) = true ∧
    pyReplaceFirst "data/x" "a" "." = "d.ta/x" ∧
    spec_leading_rewrite "a" "data/x" = "data/x" ∧
    ("d.ta/x" : String) ≠ "data/x" := by
  decide

/-- C6 (amended): with a nonempty adjustment prefix, the iterative path list
is exactly the delta's modified entries with text changes, each path
rewritten by replacing the first occurrence of the prefix *anywhere* in the
path with "."; when the path does start with the prefix, this replaces the
leading occurrence as the spec describes. -/
theorem C6_iterative_paths (adjust_path p : String) (delta : Delta)
    (h : adjust_path ≠ "")
    (hp : adjust_path.data.isPrefixOf p.data = true) :
    iterative_path_list adjust_path delta
      = (delta.modified.filter (fun e => e.text_mods)).map
          (fun e => pyReplaceFirst e.path adjust_path ".") ∧
    pyReplaceFirst p adjust_path "."
      = String.mk ('.' :: p.data.drop adjust_path.data.length) := by
  constructor
  · unfold iterative_path_list
    simp [bne_iff_ne, h]
  · unfold pyReplaceFirst
    rw [replaceFirstChars_leading _ _ _ hp]
    simp

/-- C6 witness: prefix "a", a path "a/b.c" that starts with the prefix, and
the delta of the `envC6` scenario. -/
theorem C6_iterative_paths_witness :
    iterative_path_list "a" { emptyDelta with
        modified := [⟨"data/x", 9, "file", true, false⟩] }
      = (({ emptyDelta with
          modified := [⟨"data/x", 9, "file", true, false⟩] : Delta}).modified.filter
            (fun e => e.text_mods)).map (fun e => pyReplaceFirst e.path "a" ".") ∧
    pyReplaceFirst "a/b.c" "a" "."
      = String.mk ('.' :: ("a/b.c" : String).data.drop ("a" : String).data.length) :=
  C6_iterative_paths "a" "a/b.c"
    { emptyDelta with modified := [⟨"data/x", 9, "file", true, false⟩] }
    (by decide) (by decide)

/-- C7 counterexample: for one path naming a directory and a tool that
declares recursive traversal, the spec's rule predicts single-path mode, but
the program stages whole trees (`use_tree`) and, being recursive, also hands
the tool no iterative list — refuting the claimed mode-selection rule. -/
theorem C7_mode_counterexample :
    spec_single_path_mode true false true = true ∧
    use_tree_mode 1 true false = true ∧
    run_passes_list true 1 true = false := by
  decide

/-- C7 (amended): single-path (non-tree) staging is selected iff the first
resolved item is not a directory and either exactly one input path was given
or a second branch is present; the tool's recursive capability plays no role
in staging mode — it only decides, together with the one-file case, whether
the iterative changed-path list is handed to the tool. -/
theorem C7_mode_selection (file_list_len : Nat) (in_subdir has_b2 recursive : Bool) :
    (use_tree_mode file_list_len in_subdir has_b2 = false ↔
      (in_subdir = false ∧ (file_list_len = 1 ∨ has_b2 = true))) ∧
    (run_passes_list recursive file_list_len in_subdir = true ↔
      (recursive = false ∧ ¬(file_list_len = 1 ∧ in_subdir = false))) := by
  cases in_subdir <;> cases has_b2 <;> cases recursive <;>
    by_cases hl : file_list_len = 1 <;>
      simp [use_tree_mode, run_passes_list, hl]

/-- C8: disposal of a staging area is idempotent — the first `cleanup` call
removes the tree once, and a second call on the resulting state neither
raises nor performs another filesystem removal. -/
theorem C8_cleanup_idempotent (pfx sfx rand : String) (ro : Bool) :
    ∃ d1, (NamedTemporaryDir.init pfx sfx true ro rand).1.cleanup
        = Except.ok (d1,
            [FsOp.rmtree (NamedTemporaryDir.init pfx sfx true ro rand).1.path]) ∧
      d1.cleanup = Except.ok (d1, []) := by
  refine ⟨{ (NamedTemporaryDir.init pfx sfx true ro rand).1 with cleaned := true }, ?_, ?_⟩
  · unfold NamedTemporaryDir.cleanup NamedTemporaryDir.init
    simp [mkdtempPath_endsWith]
  · unfold NamedTemporaryDir.cleanup
    simp only [NamedTemporaryDir.init]
    simp [mkdtempPath_endsWith]

/-- C9: `cleanup` refuses to remove any directory whose path lacks the
`_tmp` marker — it raises and returns no filesystem operation, even when the
path field was set directly to an arbitrary directory. -/
theorem C9_cleanup_refuses (d : NamedTemporaryDir)
    (h : strEndsWith d.path "_tmp" = false) :
    d.cleanup = Except.error (Err.bzrError
      ("attempted to delete a non-tmp directory: " ++ d.path)) := by
  unfold NamedTemporaryDir.cleanup
  simp [h]

/-- C9 witness: a staging-area record whose path was set directly to
"/etc". -/
theorem C9_cleanup_refuses_witness :
    NamedTemporaryDir.cleanup ⟨"/etc", true, false⟩
      = Except.error (Err.bzrError
          ("attempted to delete a non-tmp directory: " ++ "/etc")) :=
  C9_cleanup_refuses ⟨"/etc", true, false⟩ (by decide)

/-- C10: a staging area created with cleanup disabled starts in the
`cleaned` state, so neither an explicit `cleanup` call nor the automatic
`__del__` cleanup ever removes the directory — both return without any
filesystem operation and the directory survives. -/
theorem C10_no_cleanup_disabled (pfx sfx rand : String) (ro : Bool) :
    (NamedTemporaryDir.init pfx sfx false ro rand).1.cleaned = true ∧
    (NamedTemporaryDir.init pfx sfx false ro rand).1.cleanup
      = Except.ok ((NamedTemporaryDir.init pfx sfx false ro rand).1, []) ∧
    (NamedTemporaryDir.init pfx sfx false ro rand).1.delAuto
      = Except.ok ((NamedTemporaryDir.init pfx sfx false ro rand).1, []) := by
  refine ⟨rfl, ?_, ?_⟩
  · unfold NamedTemporaryDir.cleanup NamedTemporaryDir.init
    simp [mkdtempPath_endsWith]
  · unfold NamedTemporaryDir.delAuto NamedTemporaryDir.cleanup NamedTemporaryDir.init
    simp [mkdtempPath_endsWith]

end Bzr
